import Mathlib

/-!
# mgdb: date-range filters and the typed HTTP fetch helper

A shallow embedding of `filter.go` (package `mgdb`).

The file has three layers.

* The parts of the Go standard library and of the MongoDB driver that
  `filter.go` calls (`time`, `strconv.Itoa`, `primitive.NewObjectIDFromTimestamp`),
  embedded as functions over integers.
* The environment the package talks to: the wall clock (`time.Now`), the
  HTTP transport (`http.Get`, `io.ReadAll`) and the JSON decoder
  (`json.Unmarshal`), each an explicit argument.
* The functions of `filter.go` themselves, under their own names.

Conventions of the embedding.

* Every function that reads the wall clock takes the reading as its argument
  `now`, a `Time` in the local zone of the machine, as `time.Now()` returns
  it. The readings made during one evaluation of `GetDateSekarang`,
  `GetDateKemarin`, `GetDateKemarinBukanHariLibur`, `TodayFilter` or
  `YesterdayFilter` are the same instant.
* During one evaluation of `GetDateKemarinBukanHariLibur` the transport is a
  function of the requested URL, so the holiday API gives the same answer each
  time it is asked for the same month.
* `YesterdayNotLiburFilter` evaluates `GetDateKemarinBukanHariLibur` twice.
  Each of the two evaluations has its own reading of the clock and its own
  transport.
* The driver keeps the bytes `processUnique` and the counter
  `objectIDCounter`; `NewObjectIDFromTimestamp` takes the state of the driver
  and returns the state after the call next to the ObjectID.
* Errors are represented by their text, and `nil` by `none`.
* Machine integers are unbounded, except in `uint32`, where the driver
  truncates the Unix seconds to 32 bits.
* The `for` loop of `GetDateKemarinBukanHariLibur` is bounded by a number of
  evaluations of its condition; `none` stands for a loop that has not stopped
  within the bound.
-/

namespace Mgdb

/-! ## The `time` package -/

/-- One period of a time zone: its offset east of UTC in seconds, and the
half-open range of Unix seconds `[start, stop)` in which it is in force. -/
structure Zone where
  offset : Int
  start : Int
  stop : Int

/-- Go's `time.Location`: a name and the lookup of the zone period in force
at an instant given in Unix seconds. -/
structure Location where
  name : String
  lookup : Int → Zone

/-- Go's `time.Time`: an instant (Unix seconds plus the nanoseconds within
the second, which Go keeps in the range `[0, 999999999]`) presented in a
location. The monotonic clock reading is not modelled; none of the functions
embedded here reads it. -/
structure Time where
  unix : Int
  nsec : Fin 1000000000
  loc : Location

/-- Smallest instant of Go's zone lookup (`alpha`). -/
def zoneAlpha : Int := -(2 ^ 63)

/-- Largest instant of Go's zone lookup (`omega`). -/
def zoneOmega : Int := 2 ^ 63 - 1

/-- Go's `time.FixedZone`: a location that always uses the given offset. -/
def FixedZone (name : String) (offset : Int) : Location :=
  { name := name, lookup := fun _ => { offset := offset, start := zoneAlpha, stop := zoneOmega } }

/-- Go's `time.UTC`. -/
def UTC : Location := FixedZone "UTC" 0

/-- The location that `time.LoadLocation("Asia/Jakarta")` yields for the
instants the wall clock can show: Western Indonesia Time, seven hours east of
UTC, the only rule of the zone since 1964. The error result of
`LoadLocation` is dropped by the source and is not modelled. -/
def Jakarta : Location := FixedZone "Asia/Jakarta" 25200

/-- Go's `secondsPerDay`. -/
def secondsPerDay : Int := 86400

/-- Days from 0001-01-01 to 1970-01-01 in the proleptic Gregorian calendar. -/
def unixEpochDays : Int := 719162

/-- Go's `isLeap`. -/
def isLeap (year : Int) : Bool :=
  year % 4 == 0 && (year % 100 != 0 || year % 400 == 0)

/-- Go's `daysBefore` table: `daysBefore m` counts the days of a non-leap
year before month `m + 1`. -/
def daysBefore (m : Int) : Int :=
  if m ≤ 0 then 0
  else if m = 1 then 31
  else if m = 2 then 59
  else if m = 3 then 90
  else if m = 4 then 120
  else if m = 5 then 151
  else if m = 6 then 181
  else if m = 7 then 212
  else if m = 8 then 243
  else if m = 9 then 273
  else if m = 10 then 304
  else if m = 11 then 334
  else 365

/-- Go's `daysSinceEpoch`, counted from year 1 (Go counts from an earlier
year that is congruent to 1 modulo 400): the days before 1 January of
`year`, by 400-, 100-, 4- and 1-year cycles. -/
def daysSinceEpoch (year : Int) : Int :=
  let y := year - 1
  let n400 := y / 400
  let y := y - 400 * n400
  let d := 146097 * n400
  let n100 := y / 100
  let y := y - 100 * n100
  let d := d + 36524 * n100
  let n4 := y / 4
  let y := y - 4 * n4
  let d := d + 1461 * n4
  d + 365 * y

/-- Go's `norm`: carry `lo` into `hi` so that `0 ≤ lo < base`. -/
def norm (hi lo base : Int) : Int × Int :=
  (hi + lo / base, lo % base)

/-- Local seconds since 1970-01-01 00:00:00 of the wall time that
`time.Date` is asked for, before the zone offset is taken off. -/
def dateLocalSeconds (year month day hour min sec : Int) : Int :=
  let (year, m) := norm year (month - 1) 12
  let month := m + 1
  let (min, sec) := norm min sec 60
  let (hour, min) := norm hour min 60
  let (day, hour) := norm day hour 24
  let d := daysSinceEpoch year
  let d := d + daysBefore (month - 1)
  let d := if isLeap year && month ≥ 3 then d + 1 else d
  let d := d + (day - 1)
  (d - unixEpochDays) * secondsPerDay + (hour * 3600 + min * 60 + sec)

/-- Go's `time.Date`: the instant at which the location shows the given wall
time. The fields are normalised, the wall time is turned into seconds, and the
zone offset is found with at most two lookups, as in the library. -/
def Date (year month day hour min sec nsec : Int) (loc : Location) : Time :=
  let sec := (norm sec nsec 1000000000).1
  let unix := dateLocalSeconds year month day hour min sec
  let z := loc.lookup unix
  let unix :=
    if z.offset ≠ 0 then
      let utc := unix - z.offset
      let offset :=
        if utc < z.start ∨ utc ≥ z.stop then (loc.lookup utc).offset else z.offset
      unix - offset
    else unix
  { unix := unix, nsec := ⟨(nsec % 1000000000).toNat, by omega⟩, loc := loc }

/-- Go's `Time.abs`, counted from the Unix epoch: the seconds the location's
wall clock shows at the instant. -/
def Time.abs (t : Time) : Int :=
  t.unix + (t.loc.lookup t.unix).offset

/-- The first half of Go's `absDate`: the year and the zero-based day of the
year of a count of days since 0001-01-01, through the 400-, 100-, 4- and
1-year cycles. -/
def absYday (days : Int) : Int × Int :=
  let d := days
  let n400 := d / 146097
  let d := d - 146097 * n400
  let n100 := d / 36524
  let n100 := n100 - n100 / 4
  let d := d - 36524 * n100
  let n4 := d / 1461
  let d := d - 1461 * n4
  let n1 := d / 365
  let n1 := n1 - n1 / 4
  let d := d - 365 * n1
  (1 + 400 * n400 + 100 * n100 + 4 * n4 + n1, d)

/-- The second half of Go's `absDate`: month and day of month of the
zero-based day `yday` of a year that is a leap year or not. The month is
estimated as if every month had 31 days and moved up by one where needed. -/
def ydayMonthDay (leap : Bool) (yday : Int) : Int × Int :=
  if leap && yday == 59 then (2, 29)
  else
    let day := if leap && yday > 59 then yday - 1 else yday
    let month := day / 31
    let stop := daysBefore (month + 1)
    if day ≥ stop then (month + 2, day - stop + 1)
    else (month + 1, day - daysBefore month + 1)

/-- Go's `absDate`: year, month and day of month of a count of local
seconds. -/
def absDate (abs : Int) : Int × Int × Int :=
  let yd := absYday (abs / secondsPerDay + unixEpochDays)
  let md := ydayMonthDay (isLeap yd.1) yd.2
  (yd.1, md.1, md.2)

/-- Go's `Time.Year`. -/
def Time.Year (t : Time) : Int := (absDate t.abs).1

/-- Go's `Time.Month`, January being 1. -/
def Time.Month (t : Time) : Int := (absDate t.abs).2.1

/-- Go's `Time.Day`. -/
def Time.Day (t : Time) : Int := (absDate t.abs).2.2

/-- Go's `Time.Clock`: hour, minute and second within the day. -/
def Time.Clock (t : Time) : Int × Int × Int :=
  let s := t.abs % secondsPerDay
  (s / 3600, s % 3600 / 60, s % 60)

/-- Go's `Time.Weekday`, Sunday being 0. 1970-01-01 was a Thursday. -/
def Time.Weekday (t : Time) : Int :=
  (t.abs + 4 * secondsPerDay) % (7 * secondsPerDay) / secondsPerDay

/-- Go's `Time.In`: the same instant, presented in another location. -/
def Time.In (t : Time) (loc : Location) : Time := { t with loc := loc }

/-- Go's `Time.Unix`. -/
def Time.Unix (t : Time) : Int := t.unix

/-- Go's `Time.Add` for a duration of whole seconds. -/
def Time.Add (t : Time) (seconds : Int) : Time := { t with unix := t.unix + seconds }

/-- Go's `Time.AddDate`: the wall-clock fields of `t` in its own location,
moved by the given years, months and days, and handed to `Date`. -/
def Time.AddDate (t : Time) (years months days : Int) : Time :=
  let hms := t.Clock
  Date (t.Year + years) (t.Month + months) (t.Day + days) hms.1 hms.2.1 hms.2.2 t.nsec.val t.loc

/-- Go's `Time.Location`. -/
def Time.Location (t : Time) : Mgdb.Location := t.loc

/-- Twenty-four hours (`24 * time.Hour`), in seconds. -/
def hours24 : Int := 86400

/-- Go's `appendInt`: the decimal digits of `x`, padded with zeros to
`width`, after a minus sign when `x` is negative. -/
def appendInt (x : Int) (width : Nat) : String :=
  let digits := Nat.toDigits 10 x.natAbs
  String.mk ((if x < 0 then ['-'] else []) ++ List.replicate (width - digits.length) '0' ++ digits)

/-- Go's `Time.Format` with layout `"2006-01-02"`. -/
def Time.Format (t : Time) : String :=
  appendInt t.Year 4 ++ "-" ++ appendInt t.Month 2 ++ "-" ++ appendInt t.Day 2

/-- Go's `strconv.Itoa`. -/
def Itoa (x : Int) : String := appendInt x 0

/-! ## The MongoDB driver -/

/-- The driver's `primitive.ObjectID`: twelve bytes. -/
abbrev ObjectID := List Nat

/-- Go's conversion `uint32(x)` of a signed integer: the value modulo `2 ^ 32`. -/
def uint32 (x : Int) : Nat := (x % 4294967296).toNat

/-- The state of the driver that `NewObjectIDFromTimestamp` uses: the five
bytes `processUnique`, drawn at random once per process, and the 32-bit
`objectIDCounter`, which starts at a random value. -/
structure DriverState where
  processUnique : List Nat
  objectIDCounter : Nat

/-- The driver's `primitive.NewObjectIDFromTimestamp`. Bytes 0 to 3 are
`uint32(timestamp.Unix())` in big-endian order, bytes 4 to 8 are
`processUnique`, and bytes 9 to 11 are the low 24 bits, in big-endian order,
of the counter after `atomic.AddUint32(&objectIDCounter, 1)`. The result is
the ObjectID and the state of the driver after the call. -/
def NewObjectIDFromTimestamp (driver : DriverState) (timestamp : Time) :
    ObjectID × DriverState :=
  let u := uint32 timestamp.Unix
  let c := (driver.objectIDCounter + 1) % 4294967296
  ([u / 16777216 % 256, u / 65536 % 256, u / 256 % 256, u % 256] ++ driver.processUnique ++
      [c / 65536 % 256, c / 256 % 256, c % 256],
    { driver with objectIDCounter := c })

/-- The driver's `ObjectID.Timestamp`, in Unix seconds: the first four bytes
read as a big-endian number. -/
def timestampSeconds : ObjectID → Nat
  | b0 :: b1 :: b2 :: b3 :: _ => b0 * 16777216 + b1 * 65536 + b2 * 256 + b3
  | _ => 0

/-- Go's `bytes.Compare`, the order of ObjectIDs: `-1`, `0` or `1` as the
first byte string is before, equal to or after the second, byte by byte. -/
def bytesCompare : List Nat → List Nat → Int
  | [], [] => 0
  | [], _ :: _ => -1
  | _ :: _, [] => 1
  | a :: as, b :: bs => if a < b then -1 else if b < a then 1 else bytesCompare as bs

/-- The driver's `bson.M`, here a document whose values are ObjectIDs, as the
list of its key-value pairs. -/
abbrev M := List (String × ObjectID)

/-- The keys of a filter with the timestamps of their ObjectIDs. -/
def filterTimestamps (f : M) : List (String × Nat) :=
  f.map fun kv => (kv.1, timestampSeconds kv.2)

/-! ## The environment: HTTP transport and JSON decoder -/

/-- What `http.Get` hands back on success, as far as `Get` looks at it: the
status code, and the outcome of `io.ReadAll(resp.Body)`, which is either the
whole body or a read error. -/
structure Response where
  StatusCode : Int
  Body : Except String String

/-- The transport: `http.Get` as a function of the requested URL, giving a
response or the transport error. Errors are represented by their text. -/
abbrev Transport := String → Except String Response

/-- A decoder for target type `T`: `json.Unmarshal(body, &result)` as a
function of the body and of the value the target holds before the call,
giving the value the target holds afterwards and the error, if any.
`encoding/json` fills the target in place, and on a value of the wrong JSON
type it records the error, skips that value and goes on, so the target
can hold decoded data also when an error is returned. -/
abbrev Unmarshal (T : Type) := String → T → T × Option String

/-- Modelled from the spec: the declaration of type `NewLiburNasional` is
missing from the source; the spec gives a holiday record one attribute read by
the code, the date string `Tanggal` in the form "YYYY-MM-DD". -/
structure NewLiburNasional where
  Tanggal : String
deriving DecidableEq, Repr

/-! ## `filter.go` -/

/-- The three results of `Get`. -/
structure GetResult (T : Type) where
  statusCode : Int
  result : T
  err : Option String

/-- The source's `Get[T]`. `zero` is the zero value of `T`, which the named
result `result` holds on entry. -/
def Get {T : Type} (httpGet : Transport) (jsonUnmarshal : Unmarshal T) (zero : T)
    (urltarget : String) : GetResult T :=
  match httpGet urltarget with
  | .error err => { statusCode := 0, result := zero, err := some err }
  | .ok resp =>
    let statusCode := resp.StatusCode
    match resp.Body with
    | .error err => { statusCode := statusCode, result := zero, err := some err }
    | .ok body =>
      match jsonUnmarshal body zero with
      | (result, some _) =>
        let rawstring := body
        { statusCode := statusCode, result := result,
          err := some ("Not A Valid JSON Response from " ++ urltarget ++ " . CONTENT: " ++ rawstring) }
      | (result, none) => { statusCode := statusCode, result := result, err := none }

/-- The source's `HariLibur`. The loop over `hasil` sets `libur` at each
entry whose `Tanggal` is the formatted date and never clears it. -/
def HariLibur (httpGet : Transport) (jsonUnmarshal : Unmarshal (List NewLiburNasional))
    (thedate : Time) : Bool :=
  let wekkday := thedate.Weekday
  let inhari := wekkday
  let libur := if inhari = 0 ∨ inhari = 6 then true else false
  let tglskr := thedate.Format
  let tgl := thedate.Month
  let urltarget := "https://dayoffapi.vercel.app/api?month=" ++ Itoa tgl
  let hasil := (Get httpGet jsonUnmarshal [] urltarget).result
  hasil.foldl (fun libur v => if v.Tanggal = tglskr then true else libur) libur

/-- The source's `GetDateSekarang`. `now` is the reading of `time.Now()`,
a time in the machine's local location. -/
def GetDateSekarang (now : Time) : Time :=
  let location := Jakarta
  let t := now.In location
  Date t.Year t.Month t.Day 0 0 0 0 t.Location

/-- The source's `GetDateKemarin`. -/
def GetDateKemarin (now : Time) : Time :=
  let location := Jakarta
  let n := -1
  let t := (now.AddDate 0 0 n).In location
  Date t.Year t.Month t.Day 0 0 0 0 t.Location

/-- The `for HariLibur(t)` loop of `GetDateKemarinBukanHariLibur`, from the
state `(n, t)`. `fuel` bounds the number of times the loop condition is
evaluated; `none` means the bound was reached with the condition still true. -/
def kemarinLoop (httpGet : Transport) (jsonUnmarshal : Unmarshal (List NewLiburNasional))
    (now : Time) : Nat → Int → Time → Option Time
  | 0, _, _ => none
  | fuel + 1, n, t =>
    if HariLibur httpGet jsonUnmarshal t then
      let n := n - 1
      kemarinLoop httpGet jsonUnmarshal now fuel n ((now.AddDate 0 0 n).In Jakarta)
    else some t

/-- The source's `GetDateKemarinBukanHariLibur`, with the loop bounded by
`fuel` evaluations of its condition. -/
def GetDateKemarinBukanHariLibur (httpGet : Transport)
    (jsonUnmarshal : Unmarshal (List NewLiburNasional)) (fuel : Nat) (now : Time) : Option Time :=
  let location := Jakarta
  let n := -1
  let t := (now.AddDate 0 0 n).In location
  match kemarinLoop httpGet jsonUnmarshal now fuel n t with
  | none => none
  | some t => some (Date t.Year t.Month t.Day 0 0 0 0 t.Location)

/-- The source's `TodayFilter`. The calls in the map literal run in the
order in which they are written: the ObjectID of "$gte" is made first. -/
def TodayFilter (driver : DriverState) (now : Time) : M × DriverState :=
  let gte := NewObjectIDFromTimestamp driver (GetDateSekarang now)
  let lt := NewObjectIDFromTimestamp gte.2 ((GetDateSekarang now).Add hours24)
  ([("$gte", gte.1), ("$lt", lt.1)], lt.2)

/-- The source's `YesterdayNotLiburFilter`. The source calls
`GetDateKemarinBukanHariLibur()` once for each bound: the first evaluation
reads the clock at `nowFirst` and is answered by `httpGetFirst`, the second
reads the clock at `nowSecond` and is answered by `httpGetSecond`. -/
def YesterdayNotLiburFilter (driver : DriverState) (httpGetFirst httpGetSecond : Transport)
    (jsonUnmarshal : Unmarshal (List NewLiburNasional)) (fuel : Nat)
    (nowFirst nowSecond : Time) : Option (M × DriverState) :=
  match GetDateKemarinBukanHariLibur httpGetFirst jsonUnmarshal fuel nowFirst with
  | none => none
  | some first =>
    let gte := NewObjectIDFromTimestamp driver first
    match GetDateKemarinBukanHariLibur httpGetSecond jsonUnmarshal fuel nowSecond with
    | none => none
    | some second =>
      let lt := NewObjectIDFromTimestamp gte.2 (second.Add hours24)
      some ([("$gte", gte.1), ("$lt", lt.1)], lt.2)

/-- The source's `YesterdayFilter`. -/
def YesterdayFilter (driver : DriverState) (now : Time) : M × DriverState :=
  let gte := NewObjectIDFromTimestamp driver (GetDateKemarin now)
  let lt := NewObjectIDFromTimestamp gte.2 ((GetDateKemarin now).Add hours24)
  ([("$gte", gte.1), ("$lt", lt.1)], lt.2)

/-! ## Calendar days in Asia/Jakarta -/

/-- The number of the Asia/Jakarta calendar day that contains the instant,
counted from 1970-01-01. -/
def jakartaDay (t : Time) : Int := (t.unix + 25200) / 86400

/-- The instant 00:00:00.000 Asia/Jakarta that begins the calendar day with
the given number. -/
def jakartaMidnight (day : Int) : Time :=
  { unix := day * 86400 - 25200, nsec := 0, loc := Jakarta }

/-- The weekday of the calendar day with the given number, Sunday being 0. -/
def weekdayOfDay (day : Int) : Int := (day + 4) % 7

/-- Whether `HariLibur` holds on the Asia/Jakarta calendar day with the
given number. -/
def liburOn (httpGet : Transport) (jsonUnmarshal : Unmarshal (List NewLiburNasional))
    (day : Int) : Bool :=
  HariLibur httpGet jsonUnmarshal (jakartaMidnight day)

/-- The location keeps one offset from UTC at every instant. -/
def Location.hasConstantOffset (loc : Location) : Prop :=
  ∃ off : Int, ∀ s : Int, (loc.lookup s).offset = off

/-! ## Stub environments -/

/-- The rules of Africa/Cairo for 2024: UTC+2 until 2024-04-25T22:00:00Z,
UTC+3 (daylight saving) until 2024-10-31T21:00:00Z, UTC+2 afterwards. -/
def cairo2024 : Location :=
  { name := "Africa/Cairo",
    lookup := fun s =>
      if s < 1714082400 then { offset := 7200, start := zoneAlpha, stop := 1714082400 }
      else if s < 1730408400 then { offset := 10800, start := 1714082400, stop := 1730408400 }
      else { offset := 7200, start := 1730408400, stop := zoneOmega } }

/-- A transport on which every request fails. -/
def transportDown : Transport := fun _ => .error "dial tcp: connection refused"

/-- A transport that answers every request with the given status and body. -/
def transportFixed (status : Int) (body : String) : Transport :=
  fun _ => .ok { StatusCode := status, Body := .ok body }

/-- A transport that answers with the given status and then fails while the
body is read. -/
def transportBrokenBody (status : Int) : Transport :=
  fun _ => .ok { StatusCode := status, Body := .error "unexpected EOF" }

/-- A state of the driver: some five bytes and a counter. -/
def driverStub : DriverState :=
  { processUnique := [17, 34, 51, 68, 85], objectIDCounter := 7 }

/-- A decoder for holiday lists that stands for `json.Unmarshal` on the four
bodies used below. The empty array decodes to the empty list. An array of
records with a string field `Tanggal` decodes to those records. On the array
of a record followed by the number `5` the decoder stores the record, meets a
number where an object is expected, records the type error, leaves that
element at its zero value and returns the error with both elements in the
target, which is what `encoding/json` documents for a value of the wrong
type. Every other body stands for bytes that are not JSON: a syntax error that
leaves the target as it was. -/
def stubUnmarshalLibur : Unmarshal (List NewLiburNasional) := fun body target =>
  if body = "[]" then ([], none)
  else if body = "[\x7b\"Tanggal\":\"2024-04-26\"\x7d]" then
    ([{ Tanggal := "2024-04-26" }], none)
  else if body = "[\x7b\"Tanggal\":\"2024-04-25\"\x7d,\x7b\"Tanggal\":\"2024-04-26\"\x7d]" then
    ([{ Tanggal := "2024-04-25" }, { Tanggal := "2024-04-26" }], none)
  else if body = "[\x7b\"Tanggal\":\"2024-05-01\"\x7d,5]" then
    ([{ Tanggal := "2024-05-01" }, { Tanggal := "" }],
      some "json: cannot unmarshal number into Go value of type mgdb.NewLiburNasional")
  else (target, some "invalid character looking for beginning of value")

/-- A target shape with one boolean field `ok`. -/
structure OkShape where
  ok : Bool
deriving DecidableEq, Repr

/-- A decoder for `OkShape` that stands for `json.Unmarshal` on the two
one-field objects and reports a syntax error on any other body. -/
def stubUnmarshalOk : Unmarshal OkShape := fun body target =>
  if body = "\x7b\"ok\":true\x7d" then ({ ok := true }, none)
  else if body = "\x7b\"ok\":false\x7d" then ({ ok := false }, none)
  else (target, some "invalid character looking for beginning of value")


/-! ## The calendar: `absDate` and `Date` are inverse to each other -/

theorem daysSinceEpoch_cycles (a b c e : Int) (hb : 0 ≤ b ∧ b ≤ 3) (hc : 0 ≤ c ∧ c ≤ 24)
    (he : 0 ≤ e ∧ e ≤ 3) :
    daysSinceEpoch (1 + 400 * a + 100 * b + 4 * c + e)
      = 146097 * a + 36524 * b + 1461 * c + 365 * e := by
  simp only [daysSinceEpoch]
  have h400 : (1 + 400 * a + 100 * b + 4 * c + e - 1) / 400 = a := by omega
  rw [h400]
  have h100 : (1 + 400 * a + 100 * b + 4 * c + e - 1 - 400 * a) / 100 = b := by omega
  rw [h100]
  have h4 : (1 + 400 * a + 100 * b + 4 * c + e - 1 - 400 * a - 100 * b) / 4 = c := by omega
  rw [h4]
  omega

theorem isLeap_cycles (a b c e : Int) (hb : 0 ≤ b ∧ b ≤ 3) (hc : 0 ≤ c ∧ c ≤ 24)
    (he : 0 ≤ e ∧ e ≤ 3) :
    isLeap (1 + 400 * a + 100 * b + 4 * c + e) = true ↔ (e = 3 ∧ (c ≠ 24 ∨ b = 3)) := by
  simp only [isLeap, Bool.and_eq_true, Bool.or_eq_true, beq_iff_eq, bne_iff_ne, ne_eq]
  omega

theorem absYday_cycles (days : Int) :
    ∃ a b c e r : Int, (0 ≤ b ∧ b ≤ 3) ∧ (0 ≤ c ∧ c ≤ 24) ∧ (0 ≤ e ∧ e ≤ 3) ∧
      absYday days = (1 + 400 * a + 100 * b + 4 * c + e, r) ∧
      days = 146097 * a + 36524 * b + 1461 * c + 365 * e + r ∧
      0 ≤ r ∧ (r < 365 ∨ (r = 365 ∧ e = 3 ∧ (c ≠ 24 ∨ b = 3))) := by
  simp only [absYday]
  have ha : 146097 * (days / 146097) ≤ days ∧ days < 146097 * (days / 146097) + 146097 := by
    omega
  generalize days / 146097 = a at *
  generalize hr1 : days - 146097 * a = r1 at *
  have hb0 : 36524 * (r1 / 36524) ≤ r1 ∧ r1 < 36524 * (r1 / 36524) + 36524 := by omega
  have hb0r : 0 ≤ r1 / 36524 ∧ r1 / 36524 ≤ 4 := by omega
  generalize r1 / 36524 = b0 at *
  have hb : 0 ≤ b0 - b0 / 4 ∧ b0 - b0 / 4 ≤ 3 ∧ (b0 = 4 → b0 - b0 / 4 = 3) ∧
      (b0 ≤ 3 → b0 - b0 / 4 = b0) := by omega
  generalize b0 - b0 / 4 = b at *
  generalize hr2 : r1 - 36524 * b = r2 at *
  have hr2b : 0 ≤ r2 ∧ r2 ≤ 36524 ∧ (r2 = 36524 → b = 3) := by omega
  have hc : 1461 * (r2 / 1461) ≤ r2 ∧ r2 < 1461 * (r2 / 1461) + 1461 := by omega
  have hcr : 0 ≤ r2 / 1461 ∧ r2 / 1461 ≤ 24 := by omega
  generalize r2 / 1461 = c at *
  generalize hr3 : r2 - 1461 * c = r3 at *
  have he0 : 365 * (r3 / 365) ≤ r3 ∧ r3 < 365 * (r3 / 365) + 365 := by omega
  have he0r : 0 ≤ r3 / 365 ∧ r3 / 365 ≤ 4 := by omega
  generalize r3 / 365 = e0 at *
  have he : 0 ≤ e0 - e0 / 4 ∧ e0 - e0 / 4 ≤ 3 ∧ (e0 = 4 → e0 - e0 / 4 = 3) ∧
      (e0 ≤ 3 → e0 - e0 / 4 = e0) := by omega
  generalize e0 - e0 / 4 = e at *
  refine ⟨a, b, c, e, r3 - 365 * e, ⟨hb.1, hb.2.1⟩, hcr, ⟨he.1, he.2.1⟩, rfl, by omega, by omega, ?_⟩
  omega

/-- The year and day of year found by `absYday` add up to the day count, and
the day of year lies inside the year. -/
theorem absYday_spec (days : Int) :
    daysSinceEpoch (absYday days).1 + (absYday days).2 = days ∧
    0 ≤ (absYday days).2 ∧
    (absYday days).2 < (if isLeap (absYday days).1 = true then 366 else 365) := by
  obtain ⟨a, b, c, e, r, hb, hc, he, hy, hd, hr0, hr⟩ := absYday_cycles days
  have hleap := isLeap_cycles a b c e hb hc he
  rw [hy]
  simp only
  rw [daysSinceEpoch_cycles a b c e hb hc he]
  refine ⟨by omega, hr0, ?_⟩
  by_cases hl : isLeap (1 + 400 * a + 100 * b + 4 * c + e) = true
  · rw [if_pos hl]; omega
  · rw [if_neg hl]
    have : ¬ (e = 3 ∧ (c ≠ 24 ∨ b = 3)) := fun h => hl (hleap.2 h)
    omega

theorem daysBefore_table :
    daysBefore 0 = 0 ∧ daysBefore 1 = 31 ∧ daysBefore 2 = 59 ∧ daysBefore 3 = 90 ∧
    daysBefore 4 = 120 ∧ daysBefore 5 = 151 ∧ daysBefore 6 = 181 ∧ daysBefore 7 = 212 ∧
    daysBefore 8 = 243 ∧ daysBefore 9 = 273 ∧ daysBefore 10 = 304 ∧ daysBefore 11 = 334 ∧
    daysBefore 12 = 365 := by decide

/-- The month estimate of `ydayMonthDay` on a day of a year without its leap day. -/
theorem monthEstimate_spec (day : Int) (h0 : 0 ≤ day) (h1 : day < 365) :
    ∃ m d : Int,
      (if day ≥ daysBefore (day / 31 + 1) then (day / 31 + 2, day - daysBefore (day / 31 + 1) + 1)
        else (day / 31 + 1, day - daysBefore (day / 31) + 1)) = (m, d) ∧
      1 ≤ m ∧ m ≤ 12 ∧ 1 ≤ d ∧ d ≤ 31 ∧ daysBefore (m - 1) + (d - 1) = day ∧
      (m ≥ 3 ↔ day ≥ 59) := by
  have hq : 31 * (day / 31) ≤ day ∧ day < 31 * (day / 31) + 31 := by omega
  have hqr : 0 ≤ day / 31 ∧ day / 31 ≤ 11 := by omega
  generalize day / 31 = q at *
  obtain ⟨hq0, hq11⟩ := hqr
  obtain ⟨t0, t1, t2, t3, t4, t5, t6, t7, t8, t9, t10, t11, t12⟩ := daysBefore_table
  interval_cases q
  all_goals norm_num only
  all_goals simp only [t0, t1, t2, t3, t4, t5, t6, t7, t8, t9, t10, t11, t12]
  all_goals split_ifs
  all_goals refine ⟨_, _, rfl, ?_⟩
  all_goals norm_num only
  all_goals simp only [t0, t1, t2, t3, t4, t5, t6, t7, t8, t9, t10, t11, t12]
  all_goals (try simp only [true_and, false_iff, true_iff])
  all_goals omega

/-- Month and day of month found by `ydayMonthDay` are in range and add up
to the day of the year, the leap day counted where the month is past February. -/
theorem ydayMonthDay_spec (leap : Bool) (yday : Int) (h0 : 0 ≤ yday)
    (h1 : yday < (if leap = true then 366 else 365)) :
    (1 ≤ (ydayMonthDay leap yday).1 ∧ (ydayMonthDay leap yday).1 ≤ 12) ∧
    (1 ≤ (ydayMonthDay leap yday).2 ∧ (ydayMonthDay leap yday).2 ≤ 31) ∧
    daysBefore ((ydayMonthDay leap yday).1 - 1)
      + (if leap = true ∧ (ydayMonthDay leap yday).1 ≥ 3 then 1 else 0)
      + ((ydayMonthDay leap yday).2 - 1) = yday := by
  cases leap
  · simp only [Bool.false_eq_true, if_false] at h1
    obtain ⟨m, d, hmd, hm1, hm12, hd1, hd31, hsum, _⟩ := monthEstimate_spec yday h0 h1
    simp only [ydayMonthDay, Bool.false_and, Bool.false_eq_true, if_false, false_and]
    rw [hmd]
    simp only
    omega
  · simp only [if_true] at h1
    by_cases h59 : yday = 59
    · subst h59
      simp [ydayMonthDay, daysBefore_table.2.1]
    · by_cases hgt : yday > 59
      · obtain ⟨m, d, hmd, hm1, hm12, hd1, hd31, hsum, hm3⟩ :=
          monthEstimate_spec (yday - 1) (by omega) (by omega)
        simp only [ydayMonthDay, Bool.true_and, beq_iff_eq, h59, if_false, decide_eq_true_eq,
          hgt, if_true, true_and]
        rw [hmd]
        simp only
        have : m ≥ 3 := hm3.2 (by omega)
        rw [if_pos this]
        omega
      · obtain ⟨m, d, hmd, hm1, hm12, hd1, hd31, hsum, hm3⟩ :=
          monthEstimate_spec yday h0 (by omega)
        simp only [ydayMonthDay, Bool.true_and, beq_iff_eq, h59, if_false, decide_eq_true_eq,
          hgt, true_and]
        rw [hmd]
        simp only
        have : ¬ m ≥ 3 := fun h => by have := hm3.1 h; omega
        rw [if_neg this]
        omega

/-- Fields of `absDate`: the month is a month, the day a day of the month,
and `daysSinceEpoch`, `daysBefore` and the leap day give back the day count. -/
theorem absDate_spec (abs : Int) :
    (1 ≤ (absDate abs).2.1 ∧ (absDate abs).2.1 ≤ 12) ∧
    (1 ≤ (absDate abs).2.2 ∧ (absDate abs).2.2 ≤ 31) ∧
    daysSinceEpoch (absDate abs).1 + daysBefore ((absDate abs).2.1 - 1)
      + (if isLeap (absDate abs).1 = true ∧ (absDate abs).2.1 ≥ 3 then 1 else 0)
      + ((absDate abs).2.2 - 1) = abs / secondsPerDay + unixEpochDays := by
  obtain ⟨hsum, hy0, hy1⟩ := absYday_spec (abs / secondsPerDay + unixEpochDays)
  obtain ⟨hm, hd, hmd⟩ := ydayMonthDay_spec _ _ hy0 hy1
  simp only [absDate]
  refine ⟨hm, hd, ?_⟩
  omega

/-- The wall time that `Date` computes from the fields of `absDate`, the
day moved by `k`, is the same time of day `k` days later. -/
theorem dateLocalSeconds_absDate (abs k hour min sec : Int)
    (hh : 0 ≤ hour ∧ hour < 24) (hm : 0 ≤ min ∧ min < 60) (hs : 0 ≤ sec ∧ sec < 60) :
    dateLocalSeconds (absDate abs).1 (absDate abs).2.1 ((absDate abs).2.2 + k) hour min sec
      = (abs / secondsPerDay + k) * secondsPerDay + (hour * 3600 + min * 60 + sec) := by
  obtain ⟨hmo, hd, hsum⟩ := absDate_spec abs
  generalize (absDate abs).1 = y at *
  generalize (absDate abs).2.1 = m at *
  generalize (absDate abs).2.2 = d at *
  have e1 : (m - 1) / 12 = 0 := by omega
  have e2 : (m - 1) % 12 = m - 1 := by omega
  have e3 : sec / 60 = 0 := by omega
  have e4 : sec % 60 = sec := by omega
  have e5 : min / 60 = 0 := by omega
  have e6 : min % 60 = min := by omega
  have e7 : hour / 24 = 0 := by omega
  have e8 : hour % 24 = hour := by omega
  simp only [dateLocalSeconds, norm, e1, e2, e3, e4, e5, e6, e7, e8, add_zero, sub_add_cancel,
    Bool.and_eq_true, decide_eq_true_eq]
  generalize daysSinceEpoch y = dy at *
  generalize daysBefore (m - 1) = db at *
  split_ifs at hsum ⊢ <;> simp only [secondsPerDay, unixEpochDays] at * <;> omega

/-! ## `Date`, `AddDate` and the weekday in a location with one offset -/

theorem Date_unix_of_constant (loc : Location) (off : Int)
    (h : ∀ s : Int, (loc.lookup s).offset = off) (year month day hour min sec nsec : Int) :
    (Date year month day hour min sec nsec loc).unix
      = dateLocalSeconds year month day hour min (norm sec nsec 1000000000).1 - off := by
  simp only [Date, h]
  split_ifs <;> omega

theorem Date_midnight (t : Time) (h : t.loc = Jakarta) :
    Date t.Year t.Month t.Day 0 0 0 0 t.Location = jakartaMidnight (jakartaDay t) := by
  have hu := Date_unix_of_constant Jakarta 25200 (fun _ => rfl) t.Year t.Month t.Day 0 0 0 0
  have hd := dateLocalSeconds_absDate t.abs 0 0 0 0 (by omega) (by omega) (by omega)
  have habs : t.abs = t.unix + 25200 := by simp only [Time.abs, h]; rfl
  simp only [Time.Year, Time.Month, Time.Day, Time.Location, h] at hu ⊢
  have h0 : (0 : Int) / 1000000000 = 0 := by decide
  simp only [norm, h0, add_zero] at hu hd
  rw [hd, habs] at hu
  have hunix : (Date (absDate t.abs).1 (absDate t.abs).2.1 (absDate t.abs).2.2 0 0 0 0 Jakarta).unix
      = jakartaDay t * 86400 - 25200 := by
    rw [habs, hu]; simp only [jakartaDay, secondsPerDay]; omega
  simp only [jakartaMidnight]
  rw [← hunix]
  rfl

theorem AddDate_days_of_constant (t : Time) (h : t.loc.hasConstantOffset) (k : Int) :
    (t.AddDate 0 0 k).unix = t.unix + k * 86400 := by
  obtain ⟨off, hoff⟩ := h
  have hn : (t.nsec.val : Int) / 1000000000 = 0 := by
    have := t.nsec.isLt
    omega
  have hs : 0 ≤ t.abs % secondsPerDay ∧ t.abs % secondsPerDay < 86400 := by
    simp only [secondsPerDay]; omega
  have hd := dateLocalSeconds_absDate t.abs k (t.abs % secondsPerDay / 3600)
    (t.abs % secondsPerDay % 3600 / 60) (t.abs % secondsPerDay % 60)
    (by omega) (by omega) (by omega)
  simp only [Time.AddDate, Time.Year, Time.Month, Time.Day, Time.Clock, add_zero]
  rw [Date_unix_of_constant t.loc off hoff]
  simp only [norm, hn, add_zero]
  rw [hd]
  have habs : t.abs = t.unix + off := by simp only [Time.abs, hoff]
  rw [habs] at hs ⊢
  simp only [secondsPerDay] at hs ⊢
  omega

theorem jakartaDay_AddDate (now : Time) (h : now.loc.hasConstantOffset) (k : Int) :
    jakartaDay ((now.AddDate 0 0 k).In Jakarta) = jakartaDay now + k := by
  simp only [jakartaDay, Time.In, AddDate_days_of_constant now h k]
  omega

theorem jakartaDay_midnight (d : Int) : jakartaDay (jakartaMidnight d) = d := by
  simp only [jakartaDay, jakartaMidnight]
  omega

theorem abs_of_Jakarta (t : Time) (h : t.loc = Jakarta) : t.abs = t.unix + 25200 := by
  simp only [Time.abs, h]; rfl

theorem absDate_day (t : Time) (h : t.loc = Jakarta) :
    absDate t.abs = absDate (jakartaDay t * 86400) := by
  rw [abs_of_Jakarta t h]
  simp only [absDate, jakartaDay, secondsPerDay]
  have : (t.unix + 25200) / 86400 * 86400 / 86400 = (t.unix + 25200) / 86400 := by omega
  rw [this]

theorem Weekday_of_Jakarta (t : Time) (h : t.loc = Jakarta) :
    t.Weekday = weekdayOfDay (jakartaDay t) := by
  simp only [Time.Weekday, abs_of_Jakarta t h, weekdayOfDay, jakartaDay, secondsPerDay]
  omega

/-- `HariLibur` looks at its argument only through the Asia/Jakarta calendar
day the argument lies in. -/
theorem HariLibur_congr (httpGet : Transport) (jsonUnmarshal : Unmarshal (List NewLiburNasional))
    (t u : Time) (ht : t.loc = Jakarta) (hu : u.loc = Jakarta)
    (hd : jakartaDay t = jakartaDay u) :
    HariLibur httpGet jsonUnmarshal t = HariLibur httpGet jsonUnmarshal u := by
  simp only [HariLibur, Time.Format, Time.Month, Time.Year, Time.Day, Weekday_of_Jakarta t ht,
    Weekday_of_Jakarta u hu, absDate_day t ht, absDate_day u hu, hd]

/-! ## `Get` -/

/-- C8: when the request succeeds, the body is read and the decoder reports
an error, `Get` returns the status code of the response and an error whose
text is "Not A Valid JSON Response from " followed by the URL, " . CONTENT: "
and the raw body, so the text contains both the URL and the body. -/
theorem Get_decode_error {T : Type} (httpGet : Transport) (jsonUnmarshal : Unmarshal T)
    (zero : T) (urltarget : String) (status : Int) (body : String)
    (hresp : httpGet urltarget = .ok { StatusCode := status, Body := .ok body })
    (hdec : (jsonUnmarshal body zero).2 ≠ none) :
    (Get httpGet jsonUnmarshal zero urltarget).statusCode = status ∧
    (Get httpGet jsonUnmarshal zero urltarget).err
      = some ("Not A Valid JSON Response from " ++ urltarget ++ " . CONTENT: " ++ body) ∧
    (∃ text, (Get httpGet jsonUnmarshal zero urltarget).err = some text ∧
      urltarget.data <:+: text.data ∧ body.data <:+: text.data) := by
  have hget : (Get httpGet jsonUnmarshal zero urltarget).statusCode = status ∧
      (Get httpGet jsonUnmarshal zero urltarget).err
        = some ("Not A Valid JSON Response from " ++ urltarget ++ " . CONTENT: " ++ body) := by
    rcases hd : jsonUnmarshal body zero with ⟨result, er⟩
    rw [hd] at hdec
    cases er with
    | none => exact absurd rfl hdec
    | some e => simp only [Get, hresp, hd, and_self]
  refine ⟨hget.1, hget.2, _, hget.2, ?_, ?_⟩
  · refine ⟨"Not A Valid JSON Response from ".data, (" . CONTENT: " ++ body).data, ?_⟩
    simp only [String.data_append, List.append_assoc]
  · refine ⟨("Not A Valid JSON Response from " ++ urltarget ++ " . CONTENT: ").data, [], ?_⟩
    simp only [String.data_append, List.append_assoc, List.append_nil]

/-- C8, witness: a server that answers status 200 with bytes that are not
JSON. -/
theorem Get_decode_error_witness :
    (Get (transportFixed 200 "<html>") stubUnmarshalOk { ok := false } "http://stub/x").statusCode
      = 200 ∧
    (Get (transportFixed 200 "<html>") stubUnmarshalOk { ok := false } "http://stub/x").err
      = some "Not A Valid JSON Response from http://stub/x . CONTENT: <html>" :=
  have h := Get_decode_error (transportFixed 200 "<html>") stubUnmarshalOk { ok := false }
    "http://stub/x" 200 "<html>" rfl (by decide)
  ⟨h.1, h.2.1⟩

/-- C10: when the request succeeds, the body is read in full and the
decoder accepts it, `Get` returns the status code of the response, whatever it
is, the decoded value and no error. -/
theorem Get_success {T : Type} (httpGet : Transport) (jsonUnmarshal : Unmarshal T)
    (zero : T) (urltarget : String) (status : Int) (body : String) (value : T)
    (hresp : httpGet urltarget = .ok { StatusCode := status, Body := .ok body })
    (hdec : jsonUnmarshal body zero = (value, none)) :
    (Get httpGet jsonUnmarshal zero urltarget).statusCode = status ∧
    (Get httpGet jsonUnmarshal zero urltarget).result = value ∧
    (Get httpGet jsonUnmarshal zero urltarget).err = none := by
  simp only [Get, hresp, hdec, and_self]

/-- C10, witness: a server that answers status 200 with the object whose
field `ok` is true. -/
theorem Get_success_witness :
    (Get (transportFixed 200 "\x7b\"ok\":true\x7d") stubUnmarshalOk { ok := false }
      "http://stub/ok").statusCode = 200 ∧
    (Get (transportFixed 200 "\x7b\"ok\":true\x7d") stubUnmarshalOk { ok := false }
      "http://stub/ok").result = { ok := true } ∧
    (Get (transportFixed 200 "\x7b\"ok\":true\x7d") stubUnmarshalOk { ok := false }
      "http://stub/ok").err = none :=
  Get_success (transportFixed 200 "\x7b\"ok\":true\x7d") stubUnmarshalOk { ok := false }
    "http://stub/ok" 200 "\x7b\"ok\":true\x7d" { ok := true } rfl (by decide)

/-- C9, as stated, fails: the network breaks while the body is read, after a
response with status 200 has arrived; `Get` returns the read error, and the
status code it returns is 200, not 0. -/
theorem Get_read_failure_keeps_status :
    (Get (transportBrokenBody 200) stubUnmarshalOk { ok := false } "http://stub/x").err
      = some "unexpected EOF" ∧
    (Get (transportBrokenBody 200) stubUnmarshalOk { ok := false } "http://stub/x").statusCode
      = 200 ∧
    (Get (transportBrokenBody 200) stubUnmarshalOk { ok := false } "http://stub/x").statusCode
      ≠ 0 := by
  decide

/-- C9, amended: when `http.Get` fails, or when the response arrives and
reading its body fails, `Get` returns that error and the zero value of `T`;
the status code is 0 in the first case and the status code of the response in
the second. -/
theorem Get_network_failure {T : Type} (httpGet : Transport) (jsonUnmarshal : Unmarshal T)
    (zero : T) (urltarget : String) (e : String)
    (hfail : httpGet urltarget = .error e ∨
      ∃ status, httpGet urltarget = .ok { StatusCode := status, Body := .error e }) :
    (Get httpGet jsonUnmarshal zero urltarget).err = some e ∧
    (Get httpGet jsonUnmarshal zero urltarget).result = zero ∧
    (Get httpGet jsonUnmarshal zero urltarget).statusCode
      = (match httpGet urltarget with
         | .error _ => 0
         | .ok resp => resp.StatusCode) := by
  unfold Get
  rcases hfail with h | ⟨status, h⟩
  · rw [h]; exact ⟨rfl, rfl, rfl⟩
  · rw [h]; exact ⟨rfl, rfl, rfl⟩

/-- C9, witness: a transport on which every request fails. -/
theorem Get_network_failure_witness :
    (Get transportDown stubUnmarshalOk { ok := false } "http://stub/x").err
      = some "dial tcp: connection refused" ∧
    (Get transportDown stubUnmarshalOk { ok := false } "http://stub/x").result = { ok := false } ∧
    (Get transportDown stubUnmarshalOk { ok := false } "http://stub/x").statusCode = 0 :=
  Get_network_failure transportDown stubUnmarshalOk { ok := false } "http://stub/x"
    "dial tcp: connection refused" (Or.inl rfl)


/-! ## `HariLibur` -/

theorem foldl_libur (tglskr : String) (hasil : List NewLiburNasional) (libur : Bool) :
    hasil.foldl (fun libur v => if v.Tanggal = tglskr then true else libur) libur = true ↔
      libur = true ∨ ∃ v ∈ hasil, v.Tanggal = tglskr := by
  induction hasil generalizing libur with
  | nil => simp
  | cons v rest ih =>
    rw [List.foldl_cons, ih]
    by_cases hv : v.Tanggal = tglskr
    · simp [hv]
    · simp [hv]

theorem HariLibur_true_iff (httpGet : Transport) (jsonUnmarshal : Unmarshal (List NewLiburNasional))
    (thedate : Time) :
    HariLibur httpGet jsonUnmarshal thedate = true ↔
      (thedate.Weekday = 6 ∨ thedate.Weekday = 0) ∨
      ∃ v ∈ (Get httpGet jsonUnmarshal []
          ("https://dayoffapi.vercel.app/api?month=" ++ Itoa thedate.Month)).result,
        v.Tanggal = thedate.Format := by
  simp only [HariLibur, foldl_libur]
  by_cases hw : thedate.Weekday = 0 ∨ thedate.Weekday = 6
  · simp only [hw, if_true, true_or, true_iff]
    exact Or.inl (Or.symm hw)
  · have hw2 : ¬ (thedate.Weekday = 6 ∨ thedate.Weekday = 0) := fun h => hw (Or.symm h)
    simp only [hw, hw2, if_false, Bool.false_eq_true, false_or]

/-- C4: `HariLibur` is true exactly when the weekday of the date is Saturday
or Sunday, or the list that `Get` returns for the URL of the date's month
number holds an entry whose `Tanggal` is the date formatted as "YYYY-MM-DD". -/
theorem HariLibur_iff (httpGet : Transport) (jsonUnmarshal : Unmarshal (List NewLiburNasional))
    (thedate : Time) :
    HariLibur httpGet jsonUnmarshal thedate = true ↔
      (thedate.Weekday = 6 ∨ thedate.Weekday = 0) ∨
      ∃ v ∈ (Get httpGet jsonUnmarshal []
          ("https://dayoffapi.vercel.app/api?month=" ++ Itoa thedate.Month)).result,
        v.Tanggal = thedate.Format :=
  HariLibur_true_iff httpGet jsonUnmarshal thedate

/-- C7, as stated, fails: the holiday API answers with an array whose second
element is a number. Decoding fails, so `Get` returns an error, but the record
decoded before the failure is in the result, and `HariLibur` is true on
Wednesday 2024-05-01. -/
theorem HariLibur_counts_entries_of_failed_decode :
    (Get (transportFixed 200 "[\x7b\"Tanggal\":\"2024-05-01\"\x7d,5]") stubUnmarshalLibur []
      ("https://dayoffapi.vercel.app/api?month=" ++ Itoa (jakartaMidnight 19844).Month)).err
        ≠ none ∧
    (jakartaMidnight 19844).Format = "2024-05-01" ∧
    (jakartaMidnight 19844).Weekday = 3 ∧
    HariLibur (transportFixed 200 "[\x7b\"Tanggal\":\"2024-05-01\"\x7d,5]") stubUnmarshalLibur
      (jakartaMidnight 19844) = true := by
  decide

/-- C7, amended: when the lookup for the date's month fails in the
transport, while the body is read, or in a decoder that leaves no entry in the
target, `Get` returns an error, `HariLibur` drops it, and `HariLibur` is true
exactly when the weekday of the date is Saturday or Sunday. -/
theorem HariLibur_lookup_failed (httpGet : Transport)
    (jsonUnmarshal : Unmarshal (List NewLiburNasional)) (thedate : Time)
    (hfail :
      (∃ e, httpGet ("https://dayoffapi.vercel.app/api?month=" ++ Itoa thedate.Month)
        = .error e) ∨
      (∃ status e, httpGet ("https://dayoffapi.vercel.app/api?month=" ++ Itoa thedate.Month)
        = .ok { StatusCode := status, Body := .error e }) ∨
      (∃ status body e, httpGet ("https://dayoffapi.vercel.app/api?month=" ++ Itoa thedate.Month)
        = .ok { StatusCode := status, Body := .ok body } ∧
        jsonUnmarshal body [] = ([], some e))) :
    (Get httpGet jsonUnmarshal []
      ("https://dayoffapi.vercel.app/api?month=" ++ Itoa thedate.Month)).err ≠ none ∧
    (HariLibur httpGet jsonUnmarshal thedate = true ↔
      (thedate.Weekday = 6 ∨ thedate.Weekday = 0)) := by
  have hres : (Get httpGet jsonUnmarshal []
      ("https://dayoffapi.vercel.app/api?month=" ++ Itoa thedate.Month)).err ≠ none ∧
      (Get httpGet jsonUnmarshal []
      ("https://dayoffapi.vercel.app/api?month=" ++ Itoa thedate.Month)).result = [] := by
    rcases hfail with ⟨e, h⟩ | ⟨status, e, h⟩ | ⟨status, body, e, h, hd⟩
    · simp [Get, h]
    · simp [Get, h]
    · simp [Get, h, hd]
  refine ⟨hres.1, ?_⟩
  rw [HariLibur_true_iff, hres.2]
  simp

/-- C7, witness: every request fails in the transport; Saturday 2024-05-04
is a holiday and Wednesday 2024-05-01 is not. -/
theorem HariLibur_lookup_failed_witness :
    HariLibur transportDown stubUnmarshalLibur (jakartaMidnight 19847) = true ∧
    ¬ HariLibur transportDown stubUnmarshalLibur (jakartaMidnight 19844) = true :=
  ⟨(HariLibur_lookup_failed transportDown stubUnmarshalLibur (jakartaMidnight 19847)
      (Or.inl ⟨_, rfl⟩)).2.2 (by decide),
   fun h => absurd ((HariLibur_lookup_failed transportDown stubUnmarshalLibur
      (jakartaMidnight 19844) (Or.inl ⟨_, rfl⟩)).2.1 h) (by decide)⟩


/-! ## The filters -/

theorem GetDateSekarang_eq (now : Time) :
    GetDateSekarang now = jakartaMidnight (jakartaDay now) := by
  have h := Date_midnight (now.In Jakarta) rfl
  simpa only [GetDateSekarang] using h

/-- The instant `jakartaMidnight` gives for the day of a time in Asia/Jakarta
shows the same year, month and day as that time, at 00:00:00.000. -/
theorem jakartaMidnight_fields (t : Time) (h : t.loc = Jakarta) :
    (jakartaMidnight (jakartaDay t)).Year = t.Year ∧
    (jakartaMidnight (jakartaDay t)).Month = t.Month ∧
    (jakartaMidnight (jakartaDay t)).Day = t.Day ∧
    (jakartaMidnight (jakartaDay t)).Clock = (0, 0, 0) ∧
    (jakartaMidnight (jakartaDay t)).nsec = 0 := by
  have h1 := absDate_day (jakartaMidnight (jakartaDay t)) rfl
  rw [jakartaDay_midnight, ← absDate_day t h] at h1
  refine ⟨?_, ?_, ?_, ?_, rfl⟩
  · simp only [Time.Year, h1]
  · simp only [Time.Month, h1]
  · simp only [Time.Day, h1]
  · have habs : (jakartaMidnight (jakartaDay t)).abs % secondsPerDay = 0 := by
      rw [abs_of_Jakarta _ rfl]
      simp only [jakartaMidnight, secondsPerDay]
      omega
    simp only [Time.Clock, habs]
    decide

theorem jakartaMidnight_succ (d : Int) :
    (jakartaMidnight d).Add hours24 = jakartaMidnight (d + 1) := by
  simp only [jakartaMidnight, Time.Add, hours24]
  congr 1
  omega

theorem uint32_lt (x : Int) : uint32 x < 4294967296 := by
  simp only [uint32]
  omega

/-- The timestamp read back from an ObjectID is the 32-bit timestamp it was
made from, whatever the state of the driver. -/
theorem timestampSeconds_NewObjectID (driver : DriverState) (t : Time) :
    timestampSeconds (NewObjectIDFromTimestamp driver t).1 = uint32 t.unix := by
  have h := uint32_lt t.unix
  simp only [NewObjectIDFromTimestamp, Time.Unix, timestampSeconds, List.cons_append,
    List.nil_append]
  omega

theorem TodayFilter_eq (driver : DriverState) (now : Time) :
    (TodayFilter driver now).1 =
      [("$gte", (NewObjectIDFromTimestamp driver (jakartaMidnight (jakartaDay now))).1),
       ("$lt", (NewObjectIDFromTimestamp
          (NewObjectIDFromTimestamp driver (jakartaMidnight (jakartaDay now))).2
          (jakartaMidnight (jakartaDay now + 1))).1)] := by
  simp only [TodayFilter, GetDateSekarang_eq, jakartaMidnight_succ]

/-- C1: `TodayFilter` has as "$gte" bound the ObjectID that
`NewObjectIDFromTimestamp` makes of the value of `GetDateSekarang`, which is
00:00:00.000 Asia/Jakarta on the calendar day of the current instant (same
year, month and day as the instant shows in Asia/Jakarta), and as "$lt" bound
the ObjectID made next of that midnight plus 24 hours, which is the
Asia/Jakarta midnight of the next calendar day. The timestamps of the two
ObjectIDs are the 32-bit Unix seconds of the two midnights. -/
theorem TodayFilter_bounds (driver : DriverState) (now : Time) :
    GetDateSekarang now = jakartaMidnight (jakartaDay now) ∧
    ((GetDateSekarang now).Year = (now.In Jakarta).Year ∧
     (GetDateSekarang now).Month = (now.In Jakarta).Month ∧
     (GetDateSekarang now).Day = (now.In Jakarta).Day ∧
     (GetDateSekarang now).Clock = (0, 0, 0) ∧
     (GetDateSekarang now).nsec = 0) ∧
    (GetDateSekarang now).Add hours24 = jakartaMidnight (jakartaDay now + 1) ∧
    (TodayFilter driver now).1 =
      [("$gte", (NewObjectIDFromTimestamp driver (jakartaMidnight (jakartaDay now))).1),
       ("$lt", (NewObjectIDFromTimestamp
          (NewObjectIDFromTimestamp driver (jakartaMidnight (jakartaDay now))).2
          (jakartaMidnight (jakartaDay now + 1))).1)] ∧
    filterTimestamps (TodayFilter driver now).1 =
      [("$gte", uint32 (jakartaMidnight (jakartaDay now)).unix),
       ("$lt", uint32 (jakartaMidnight (jakartaDay now + 1)).unix)] := by
  have hf := jakartaMidnight_fields (now.In Jakarta) rfl
  have hd : jakartaDay (now.In Jakarta) = jakartaDay now := rfl
  rw [hd] at hf
  have hT : (TodayFilter driver now).1 =
      [("$gte", (NewObjectIDFromTimestamp driver (jakartaMidnight (jakartaDay now))).1),
       ("$lt", (NewObjectIDFromTimestamp
          (NewObjectIDFromTimestamp driver (jakartaMidnight (jakartaDay now))).2
          (jakartaMidnight (jakartaDay now + 1))).1)] := by
    simp only [TodayFilter, GetDateSekarang_eq, jakartaMidnight_succ]
  refine ⟨GetDateSekarang_eq now, ?_, ?_, hT, ?_⟩
  · rw [GetDateSekarang_eq]; exact hf
  · rw [GetDateSekarang_eq, jakartaMidnight_succ]
  · rw [hT]
    simp only [filterTimestamps, List.map_cons, List.map_nil, timestampSeconds_NewObjectID]

theorem bytesCompare_prefix_lt (u v : Nat) (as bs : List Nat) (huv : u < v)
    (hv : v < 4294967296) :
    bytesCompare
      (u / 16777216 % 256 :: u / 65536 % 256 :: u / 256 % 256 :: u % 256 :: as)
      (v / 16777216 % 256 :: v / 65536 % 256 :: v / 256 % 256 :: v % 256 :: bs) = -1 := by
  simp only [bytesCompare]
  split_ifs <;> first | rfl | (exfalso; omega)

theorem bytesCompare_prefix_gt (u v : Nat) (as bs : List Nat) (huv : v < u)
    (hu : u < 4294967296) :
    bytesCompare
      (u / 16777216 % 256 :: u / 65536 % 256 :: u / 256 % 256 :: u % 256 :: as)
      (v / 16777216 % 256 :: v / 65536 % 256 :: v / 256 % 256 :: v % 256 :: bs) = 1 := by
  simp only [bytesCompare]
  split_ifs <;> first | rfl | (exfalso; omega)

/-- In the order of ObjectIDs the timestamp decides first: an ObjectID made
of a smaller 32-bit timestamp is before one made of a larger, whatever the
state of the driver at the two calls. -/
theorem bytesCompare_of_timestamp_lt (d1 d2 : DriverState) (t1 t2 : Time)
    (h : uint32 t1.unix < uint32 t2.unix) :
    bytesCompare (NewObjectIDFromTimestamp d1 t1).1 (NewObjectIDFromTimestamp d2 t2).1 = -1 :=
  bytesCompare_prefix_lt (uint32 t1.unix) (uint32 t2.unix) _ _ h (uint32_lt t2.unix)

/-- The same with the order reversed. -/
theorem bytesCompare_of_timestamp_gt (d1 d2 : DriverState) (t1 t2 : Time)
    (h : uint32 t2.unix < uint32 t1.unix) :
    bytesCompare (NewObjectIDFromTimestamp d1 t1).1 (NewObjectIDFromTimestamp d2 t2).1 = 1 :=
  bytesCompare_prefix_gt (uint32 t1.unix) (uint32 t2.unix) _ _ h (uint32_lt t1.unix)

theorem uint32_of_range (x : Int) (h0 : 0 ≤ x) (h1 : x < 4294967296) :
    (uint32 x : Int) = x := by
  simp only [uint32]
  omega

/-- Two bounds made of timestamps `first` and `second + 24 h`, with `first`
not after `second` and both inside the range of 32-bit Unix seconds, are in
strict ObjectID order, and their timestamps are those Unix seconds. -/
theorem bounds_ordered (d1 d2 : DriverState) (first second : Time)
    (hle : first.unix ≤ second.unix) (h0 : 0 ≤ first.unix)
    (h1 : second.unix + 86400 < 4294967296) :
    bytesCompare (NewObjectIDFromTimestamp d1 first).1
      (NewObjectIDFromTimestamp d2 (second.Add hours24)).1 = -1 ∧
    (timestampSeconds (NewObjectIDFromTimestamp d1 first).1 : Int) = first.unix ∧
    (timestampSeconds (NewObjectIDFromTimestamp d2 (second.Add hours24)).1 : Int)
      = second.unix + 86400 := by
  have ha := uint32_of_range first.unix h0 (by omega)
  have hb := uint32_of_range (second.Add hours24).unix
    (by simp only [Time.Add, hours24]; omega) (by simp only [Time.Add, hours24]; omega)
  have hb2 : (second.Add hours24).unix = second.unix + 86400 := rfl
  refine ⟨bytesCompare_of_timestamp_lt _ _ _ _ (by omega), ?_, ?_⟩
  · rw [timestampSeconds_NewObjectID]; exact ha
  · rw [timestampSeconds_NewObjectID, hb, hb2]

theorem jakartaMidnight_range (d : Int) (h1 : 1 ≤ d) (h2 : d ≤ 49709) :
    0 ≤ (jakartaMidnight d).unix ∧ (jakartaMidnight d).unix + 86400 < 4294967296 := by
  simp only [jakartaMidnight]
  omega

theorem GetDateKemarin_of_constant_offset (now : Time) (h : now.loc.hasConstantOffset) :
    GetDateKemarin now = jakartaMidnight (jakartaDay now - 1) := by
  have hm := Date_midnight ((now.AddDate 0 0 (-1)).In Jakarta) rfl
  rw [jakartaDay_AddDate now h (-1)] at hm
  simpa only [GetDateKemarin] using hm

set_option maxRecDepth 100000 in
/-- C6, as stated, fails, in three ways. On the Asia/Jakarta day during
which the Unix seconds pass `2 ^ 32` (7 February 2106) the 32-bit timestamp
wraps and the "$gte" bound of `TodayFilter` is after its "$lt" bound. In the
first 17 hours of 1970-01-01 UTC the Asia/Jakarta midnight has negative Unix
seconds, which wrap as well. And `YesterdayNotLiburFilter` resolves the day
once for each bound: on Monday 2024-04-29, when the holiday API is down during
the first evaluation and lists Thursday and Friday during the second, "$gte"
is made of Friday midnight and "$lt" of Thursday midnight. -/
theorem filter_bounds_out_of_order :
    (∃ lo hi, (TodayFilter driverStub { unix := 4294950000, nsec := 0, loc := UTC }).1
        = [("$gte", lo), ("$lt", hi)] ∧
      bytesCompare lo hi = 1) ∧
    (∃ lo hi, (TodayFilter driverStub { unix := 0, nsec := 0, loc := UTC }).1
        = [("$gte", lo), ("$lt", hi)] ∧
      bytesCompare lo hi = 1) ∧
    (∃ lo hi after,
      YesterdayNotLiburFilter driverStub transportDown
          (transportFixed 200
            "[\x7b\"Tanggal\":\"2024-04-25\"\x7d,\x7b\"Tanggal\":\"2024-04-26\"\x7d]")
          stubUnmarshalLibur 5
          { unix := 1714363200, nsec := 0, loc := UTC }
          { unix := 1714363200, nsec := 0, loc := UTC }
        = some ([("$gte", lo), ("$lt", hi)], after) ∧
      timestampSeconds lo = 1714064400 ∧ timestampSeconds hi = 1713978000 ∧
      bytesCompare lo hi = 1) :=
  ⟨⟨_, _, rfl, by decide⟩, ⟨_, _, rfl, by decide⟩, ⟨_, _, _, rfl, by decide, by decide, by decide⟩⟩

/-- C6, amended: the two bounds of each filter are in strict ObjectID order,
"$gte" before "$lt", and the timestamp of "$lt" is at least 24 hours after
that of "$gte", in each of these cases. `TodayFilter`: the current instant is
from 1970-01-01T17:00:00Z to before 2106-02-06T17:00:00Z. `YesterdayFilter`:
the value of `GetDateKemarin` and the instant 24 hours later have Unix
seconds in `[0, 2 ^ 32)`; that is so when the local zone of the machine keeps
one offset and the current instant is from 1970-01-02T17:00:00Z to before
2106-02-07T17:00:00Z. `YesterdayNotLiburFilter`: both evaluations of
`GetDateKemarinBukanHariLibur` return, the second does not return an earlier
day than the first, and both days have Unix seconds in that range. -/
theorem filter_bounds_ordered (driver : DriverState) (httpGetFirst httpGetSecond : Transport)
    (jsonUnmarshal : Unmarshal (List NewLiburNasional)) (fuel : Nat) (now nowSecond : Time)
    (f : M)
    (hf :
      (f = (TodayFilter driver now).1 ∧ 61200 ≤ now.unix ∧ now.unix < 4294918800) ∨
      (f = (YesterdayFilter driver now).1 ∧ 0 ≤ (GetDateKemarin now).unix ∧
        (GetDateKemarin now).unix + 86400 < 4294967296) ∨
      (f = (YesterdayFilter driver now).1 ∧ now.loc.hasConstantOffset ∧
        147600 ≤ now.unix ∧ now.unix < 4295005200) ∨
      (∃ first second after,
        GetDateKemarinBukanHariLibur httpGetFirst jsonUnmarshal fuel now = some first ∧
        GetDateKemarinBukanHariLibur httpGetSecond jsonUnmarshal fuel nowSecond = some second ∧
        YesterdayNotLiburFilter driver httpGetFirst httpGetSecond jsonUnmarshal fuel now nowSecond
          = some (f, after) ∧
        first.unix ≤ second.unix ∧ 0 ≤ first.unix ∧ second.unix + 86400 < 4294967296)) :
    ∃ lo hi, f = [("$gte", lo), ("$lt", hi)] ∧ bytesCompare lo hi = -1 ∧
      timestampSeconds lo + 86400 ≤ timestampSeconds hi := by
  have key : ∀ (d1 d2 : DriverState) (first second : Time), first.unix ≤ second.unix →
      0 ≤ first.unix → second.unix + 86400 < 4294967296 →
      bytesCompare (NewObjectIDFromTimestamp d1 first).1
        (NewObjectIDFromTimestamp d2 (second.Add hours24)).1 = -1 ∧
      timestampSeconds (NewObjectIDFromTimestamp d1 first).1 + 86400
        ≤ timestampSeconds (NewObjectIDFromTimestamp d2 (second.Add hours24)).1 := by
    intro d1 d2 first second hle h0 h1
    obtain ⟨hc, ha, hb⟩ := bounds_ordered d1 d2 first second hle h0 h1
    exact ⟨hc, by omega⟩
  rcases hf with ⟨hf, hlo, hhi⟩ | ⟨hf, hlo, hhi⟩ | ⟨hf, hc, hlo, hhi⟩ | ⟨first, second, after, h1, h2, hf, hle, hlo, hhi⟩
  · have hr := jakartaMidnight_range (jakartaDay now)
      (by simp only [jakartaDay]; omega) (by simp only [jakartaDay]; omega)
    rw [← GetDateSekarang_eq] at hr
    exact ⟨_, _, hf, key _ _ _ _ (le_refl _) hr.1 hr.2⟩
  · exact ⟨_, _, hf, key _ _ _ _ (le_refl _) hlo hhi⟩
  · have hr := jakartaMidnight_range (jakartaDay now - 1)
      (by simp only [jakartaDay]; omega) (by simp only [jakartaDay]; omega)
    rw [← GetDateKemarin_of_constant_offset now hc] at hr
    exact ⟨_, _, hf, key _ _ _ _ (le_refl _) hr.1 hr.2⟩
  · simp only [YesterdayNotLiburFilter, h1, h2, Option.some.injEq, Prod.mk.injEq] at hf
    exact ⟨_, _, hf.1.symm, key _ _ _ _ hle hlo hhi⟩

set_option maxRecDepth 100000 in
/-- C6, witness: at 2024-04-26T16:30:00Z on a machine in UTC, `TodayFilter`
and `YesterdayFilter` (by the timestamp of its lower bound, and by the
constant offset of UTC); on Monday 2024-04-29 with a holiday API that lists
nothing, `YesterdayNotLiburFilter`. -/
theorem filter_bounds_ordered_witness :
    (∃ lo hi, (TodayFilter driverStub { unix := 1714149000, nsec := 0, loc := UTC }).1
        = [("$gte", lo), ("$lt", hi)] ∧ bytesCompare lo hi = -1 ∧
      timestampSeconds lo + 86400 ≤ timestampSeconds hi) ∧
    (∃ lo hi, (YesterdayFilter driverStub { unix := 1714149000, nsec := 0, loc := UTC }).1
        = [("$gte", lo), ("$lt", hi)] ∧ bytesCompare lo hi = -1 ∧
      timestampSeconds lo + 86400 ≤ timestampSeconds hi) ∧
    (∃ lo hi, (YesterdayFilter driverStub { unix := 1714149000, nsec := 0, loc := UTC }).1
        = [("$gte", lo), ("$lt", hi)] ∧ bytesCompare lo hi = -1 ∧
      timestampSeconds lo + 86400 ≤ timestampSeconds hi) ∧
    (∃ f after,
      YesterdayNotLiburFilter driverStub (transportFixed 200 "[]") (transportFixed 200 "[]")
          stubUnmarshalLibur 3 { unix := 1714363200, nsec := 0, loc := UTC }
          { unix := 1714363200, nsec := 0, loc := UTC } = some (f, after) ∧
      ∃ lo hi, f = [("$gte", lo), ("$lt", hi)] ∧ bytesCompare lo hi = -1 ∧
        timestampSeconds lo + 86400 ≤ timestampSeconds hi) :=
  ⟨filter_bounds_ordered driverStub transportDown transportDown stubUnmarshalLibur 0
      { unix := 1714149000, nsec := 0, loc := UTC } { unix := 1714149000, nsec := 0, loc := UTC }
      _ (Or.inl ⟨rfl, by decide, by decide⟩),
   filter_bounds_ordered driverStub transportDown transportDown stubUnmarshalLibur 0
      { unix := 1714149000, nsec := 0, loc := UTC } { unix := 1714149000, nsec := 0, loc := UTC }
      _ (Or.inr (Or.inl ⟨rfl, by decide, by decide⟩)),
   filter_bounds_ordered driverStub transportDown transportDown stubUnmarshalLibur 0
      { unix := 1714149000, nsec := 0, loc := UTC } { unix := 1714149000, nsec := 0, loc := UTC }
      _ (Or.inr (Or.inr (Or.inl ⟨rfl, ⟨0, fun _ => rfl⟩, by decide, by decide⟩))),
   ⟨_, _, rfl,
    filter_bounds_ordered driverStub (transportFixed 200 "[]") (transportFixed 200 "[]")
      stubUnmarshalLibur 3 { unix := 1714363200, nsec := 0, loc := UTC }
      { unix := 1714363200, nsec := 0, loc := UTC } _
      (Or.inr (Or.inr (Or.inr ⟨_, _, _, rfl, rfl, rfl, by decide, by decide, by decide⟩)))⟩⟩

/-! ## Yesterday, on a machine whose local zone keeps one offset -/

/-- Where the local zone of the machine keeps one offset, `YesterdayFilter`
spans the Asia/Jakarta day before the current one: the timestamps of its
bounds are those of `TodayFilter` moved back by one calendar day, and the
timestamp of its "$lt" bound is that of the "$gte" bound of `TodayFilter`. -/
theorem YesterdayFilter_of_constant_offset (driver : DriverState) (now : Time)
    (h : now.loc.hasConstantOffset) :
    (YesterdayFilter driver now).1 =
      [("$gte", (NewObjectIDFromTimestamp driver (jakartaMidnight (jakartaDay now - 1))).1),
       ("$lt", (NewObjectIDFromTimestamp
          (NewObjectIDFromTimestamp driver (jakartaMidnight (jakartaDay now - 1))).2
          (jakartaMidnight (jakartaDay now))).1)] ∧
    filterTimestamps (YesterdayFilter driver now).1 =
      [("$gte", uint32 (jakartaMidnight (jakartaDay now - 1)).unix),
       ("$lt", uint32 (jakartaMidnight (jakartaDay now)).unix)] ∧
    filterTimestamps (TodayFilter driver now).1 =
      [("$gte", uint32 (jakartaMidnight (jakartaDay now)).unix),
       ("$lt", uint32 (jakartaMidnight (jakartaDay now + 1)).unix)] := by
  have hY : (YesterdayFilter driver now).1 =
      [("$gte", (NewObjectIDFromTimestamp driver (jakartaMidnight (jakartaDay now - 1))).1),
       ("$lt", (NewObjectIDFromTimestamp
          (NewObjectIDFromTimestamp driver (jakartaMidnight (jakartaDay now - 1))).2
          (jakartaMidnight (jakartaDay now))).1)] := by
    simp only [YesterdayFilter, GetDateKemarin_of_constant_offset now h, jakartaMidnight_succ,
      sub_add_cancel]
  refine ⟨hY, ?_, ?_⟩
  · rw [hY]
    simp only [filterTimestamps, List.map_cons, List.map_nil, timestampSeconds_NewObjectID]
  · rw [TodayFilter_eq]
    simp only [filterTimestamps, List.map_cons, List.map_nil, timestampSeconds_NewObjectID]

theorem HariLibur_eq_liburOn (httpGet : Transport)
    (jsonUnmarshal : Unmarshal (List NewLiburNasional)) (t : Time) (h : t.loc = Jakarta) :
    HariLibur httpGet jsonUnmarshal t = liburOn httpGet jsonUnmarshal (jakartaDay t) :=
  HariLibur_congr httpGet jsonUnmarshal t (jakartaMidnight (jakartaDay t)) h rfl
    (jakartaDay_midnight _).symm

/-- The loop of `GetDateKemarinBukanHariLibur`, entered `j` days before
today, stops at the first day at or before that one that is not a holiday,
when the bound on its steps is large enough. -/
theorem kemarinLoop_of_constant_offset (httpGet : Transport)
    (jsonUnmarshal : Unmarshal (List NewLiburNasional)) (now : Time)
    (h : now.loc.hasConstantOffset) (k : Nat) :
    ∀ (fuel : Nat) (j : Int), k < fuel →
      (∀ i : Nat, i < k → liburOn httpGet jsonUnmarshal (jakartaDay now - j - i) = true) →
      liburOn httpGet jsonUnmarshal (jakartaDay now - j - k) = false →
      ∃ t, kemarinLoop httpGet jsonUnmarshal now fuel (-j) ((now.AddDate 0 0 (-j)).In Jakarta)
          = some t ∧
        t.loc = Jakarta ∧ jakartaDay t = jakartaDay now - j - k := by
  induction k with
  | zero =>
    intro fuel j hfuel _ hk
    obtain ⟨fuel, rfl⟩ : ∃ m, fuel = m + 1 := ⟨fuel - 1, by omega⟩
    have hday := jakartaDay_AddDate now h (-j)
    refine ⟨(now.AddDate 0 0 (-j)).In Jakarta, ?_, rfl, ?_⟩
    · have hl := HariLibur_eq_liburOn httpGet jsonUnmarshal ((now.AddDate 0 0 (-j)).In Jakarta) rfl
      rw [hday] at hl
      have hk2 : liburOn httpGet jsonUnmarshal (jakartaDay now + -j) = false := by
        have : jakartaDay now + -j = jakartaDay now - j - ((0 : Nat) : Int) := by omega
        rw [this]; exact hk
      simp only [kemarinLoop, hl, hk2, Bool.false_eq_true, if_false]
    · rw [hday]; omega
  | succ k ih =>
    intro fuel j hfuel hall hk
    obtain ⟨fuel, rfl⟩ : ∃ m, fuel = m + 1 := ⟨fuel - 1, by omega⟩
    have hday := jakartaDay_AddDate now h (-j)
    have hl := HariLibur_eq_liburOn httpGet jsonUnmarshal ((now.AddDate 0 0 (-j)).In Jakarta) rfl
    rw [hday] at hl
    have h0 : liburOn httpGet jsonUnmarshal (jakartaDay now + -j) = true := by
      have := hall 0 (by omega)
      have e : jakartaDay now + -j = jakartaDay now - j - ((0 : Nat) : Int) := by omega
      rw [e]; exact this
    obtain ⟨t, ht, hloc, hd⟩ := ih fuel (j + 1) (by omega)
      (fun i hi => by
        have := hall (i + 1) (by omega)
        have e : jakartaDay now - (j + 1) - (i : Int) = jakartaDay now - j - ((i + 1 : Nat) : Int) := by
          push_cast; omega
        rw [e]; exact this)
      (by
        have e : jakartaDay now - (j + 1) - (k : Int) = jakartaDay now - j - ((k + 1 : Nat) : Int) := by
          push_cast; omega
        rw [e]; exact hk)
    refine ⟨t, ?_, hloc, ?_⟩
    · have e : -j - 1 = -(j + 1) := by omega
      simp only [kemarinLoop, hl, h0, if_true, e]
      exact ht
    · rw [hd]; push_cast; omega

/-- Where the local zone of the machine keeps one offset: if the day `k + 1`
days before today is not a holiday and the `k` days between it and today all
are, then `GetDateKemarinBukanHariLibur` returns the Asia/Jakarta midnight of
that day as soon as the loop is allowed `k + 1` tests, and
`YesterdayNotLiburFilter`, when its two evaluations read the same instant and
get the same answers, spans that day. -/
theorem GetDateKemarinBukanHariLibur_of_constant_offset (httpGet : Transport)
    (jsonUnmarshal : Unmarshal (List NewLiburNasional)) (now : Time)
    (h : now.loc.hasConstantOffset) (k fuel : Nat) (hfuel : k < fuel)
    (hall : ∀ i : Nat, i < k →
      liburOn httpGet jsonUnmarshal (jakartaDay now - 1 - i) = true)
    (hk : liburOn httpGet jsonUnmarshal (jakartaDay now - 1 - k) = false) :
    GetDateKemarinBukanHariLibur httpGet jsonUnmarshal fuel now
      = some (jakartaMidnight (jakartaDay now - 1 - k)) ∧
    ∀ driver : DriverState,
      (YesterdayNotLiburFilter driver httpGet httpGet jsonUnmarshal fuel now now).map
          (fun r => filterTimestamps r.1)
        = some [("$gte", uint32 (jakartaMidnight (jakartaDay now - 1 - k)).unix),
                ("$lt", uint32 (jakartaMidnight (jakartaDay now - 1 - k + 1)).unix)] := by
  obtain ⟨t, ht, hloc, hd⟩ :=
    kemarinLoop_of_constant_offset httpGet jsonUnmarshal now h k fuel 1 hfuel hall hk
  have hget : GetDateKemarinBukanHariLibur httpGet jsonUnmarshal fuel now
      = some (jakartaMidnight (jakartaDay now - 1 - k)) := by
    simp only [GetDateKemarinBukanHariLibur, ht, Date_midnight t hloc, hd]
  refine ⟨hget, fun driver => ?_⟩
  simp only [YesterdayNotLiburFilter, hget, jakartaMidnight_succ, Option.map_some',
    filterTimestamps, List.map_cons, List.map_nil, timestampSeconds_NewObjectID]

/-- With no entry ever returned by the lookup, `HariLibur` is the weekend
test. -/
theorem liburOn_of_no_holidays (httpGet : Transport)
    (jsonUnmarshal : Unmarshal (List NewLiburNasional))
    (hnone : ∀ url, (Get httpGet jsonUnmarshal [] url).result = []) (day : Int) :
    liburOn httpGet jsonUnmarshal day = true ↔ (weekdayOfDay day = 6 ∨ weekdayOfDay day = 0) := by
  rw [liburOn, HariLibur_true_iff, hnone, Weekday_of_Jakarta _ rfl, jakartaDay_midnight]
  simp

/-- Where the local zone of the machine keeps one offset and no lookup
returns an entry, the loop of `GetDateKemarinBukanHariLibur` stops within 3
tests, at the most recent day before today that is Monday to Friday. -/
theorem GetDateKemarinBukanHariLibur_no_holidays (httpGet : Transport)
    (jsonUnmarshal : Unmarshal (List NewLiburNasional)) (now : Time)
    (h : now.loc.hasConstantOffset)
    (hnone : ∀ url, (Get httpGet jsonUnmarshal [] url).result = []) :
    ∃ k : Nat, k < 3 ∧
      GetDateKemarinBukanHariLibur httpGet jsonUnmarshal 3 now
        = some (jakartaMidnight (jakartaDay now - 1 - k)) ∧
      (1 ≤ weekdayOfDay (jakartaDay now - 1 - k) ∧ weekdayOfDay (jakartaDay now - 1 - k) ≤ 5) ∧
      ∀ i : Nat, i < k → (weekdayOfDay (jakartaDay now - 1 - i) = 6 ∨
        weekdayOfDay (jakartaDay now - 1 - i) = 0) := by
  have hw := liburOn_of_no_holidays httpGet jsonUnmarshal hnone
  have hfalse : ∀ d, ¬ (weekdayOfDay d = 6 ∨ weekdayOfDay d = 0) →
      liburOn httpGet jsonUnmarshal d = false := fun d hd => by
    cases hb : liburOn httpGet jsonUnmarshal d
    · rfl
    · exact absurd ((hw d).1 hb) hd
  generalize hD : jakartaDay now = D at *
  have hcases : (¬ (weekdayOfDay (D - 1) = 6 ∨ weekdayOfDay (D - 1) = 0)) ∨
      ((weekdayOfDay (D - 1) = 6 ∨ weekdayOfDay (D - 1) = 0) ∧
        ¬ (weekdayOfDay (D - 2) = 6 ∨ weekdayOfDay (D - 2) = 0)) ∨
      ((weekdayOfDay (D - 1) = 6 ∨ weekdayOfDay (D - 1) = 0) ∧
        (weekdayOfDay (D - 2) = 6 ∨ weekdayOfDay (D - 2) = 0) ∧
        ¬ (weekdayOfDay (D - 3) = 6 ∨ weekdayOfDay (D - 3) = 0)) := by
    simp only [weekdayOfDay]; omega
  have key : ∀ k : Nat, k < 3 →
      (∀ i : Nat, i < k → (weekdayOfDay (D - 1 - i) = 6 ∨ weekdayOfDay (D - 1 - i) = 0)) →
      ¬ (weekdayOfDay (D - 1 - k) = 6 ∨ weekdayOfDay (D - 1 - k) = 0) →
      GetDateKemarinBukanHariLibur httpGet jsonUnmarshal 3 now
        = some (jakartaMidnight (D - 1 - k)) ∧
      (1 ≤ weekdayOfDay (D - 1 - k) ∧ weekdayOfDay (D - 1 - k) ≤ 5) := by
    intro k hk hall hnot
    have hg := (GetDateKemarinBukanHariLibur_of_constant_offset httpGet jsonUnmarshal now h k 3 hk
      (fun i hi => by rw [hD]; exact (hw _).2 (hall i hi))
      (by rw [hD]; exact hfalse _ hnot)).1
    rw [hD] at hg
    refine ⟨hg, ?_⟩
    simp only [weekdayOfDay] at hnot ⊢
    omega
  rcases hcases with h1 | ⟨h1, h2⟩ | ⟨h1, h2, h3⟩
  · have := key 0 (by omega) (fun i hi => absurd hi (by omega))
      (by simpa using h1)
    exact ⟨0, by omega, this.1, this.2, fun i hi => absurd hi (by omega)⟩
  · have hall : ∀ i : Nat, i < 1 → (weekdayOfDay (D - 1 - i) = 6 ∨ weekdayOfDay (D - 1 - i) = 0) := by
      intro i hi
      obtain rfl : i = 0 := by omega
      simpa using h1
    have := key 1 (by omega) hall (by
      have e : D - 1 - ((1 : Nat) : Int) = D - 2 := by omega
      rw [e]; exact h2)
    exact ⟨1, by omega, this.1, this.2, hall⟩
  · have hall : ∀ i : Nat, i < 2 → (weekdayOfDay (D - 1 - i) = 6 ∨ weekdayOfDay (D - 1 - i) = 0) := by
      intro i hi
      have : i = 0 ∨ i = 1 := by omega
      rcases this with rfl | rfl
      · simpa using h1
      · have e : D - 1 - ((1 : Nat) : Int) = D - 2 := by omega
        rw [e]; exact h2
    have := key 2 (by omega) hall (by
      have e : D - 1 - ((2 : Nat) : Int) = D - 3 := by omega
      rw [e]; exact h3)
    exact ⟨2, by omega, this.1, this.2, hall⟩


/-! ## Yesterday, on a machine whose local zone changes its offset

`time.Now()` is a time in the local zone of the machine, and `AddDate` moves
the day in the location of its receiver. `GetDateKemarin` and
`GetDateKemarinBukanHariLibur` call `AddDate` before `In(location)`, so the
day is moved in the local zone, not in Asia/Jakarta. Across a change of the
local offset the result is 23 or 25 hours before the current instant. -/

set_option maxRecDepth 100000 in
/-- C5, on the code: the machine is in Africa/Cairo and the instant is
2024-04-26T16:30:00Z, which is Friday 23:30 in Asia/Jakarta and less than a
day after Cairo moved its clocks forward. `AddDate(0, 0, -1)` goes back 23
hours, to Friday 00:30 in Asia/Jakarta, so `GetDateKemarin` is the midnight of
today, the value of `GetDateSekarang`, and the bounds of `YesterdayFilter`
carry the same timestamps as the bounds of `TodayFilter`. -/
theorem YesterdayFilter_cairo_spring :
    jakartaDay { unix := 1714149000, nsec := 0, loc := cairo2024 } = 19839 ∧
    (Time.AddDate { unix := 1714149000, nsec := 0, loc := cairo2024 } 0 0 (-1)).unix
      = 1714149000 - 23 * 3600 ∧
    (GetDateKemarin { unix := 1714149000, nsec := 0, loc := cairo2024 }).unix
      = (jakartaMidnight 19839).unix ∧
    (GetDateKemarin { unix := 1714149000, nsec := 0, loc := cairo2024 }).unix
      = (GetDateSekarang { unix := 1714149000, nsec := 0, loc := cairo2024 }).unix ∧
    filterTimestamps (YesterdayFilter driverStub
        { unix := 1714149000, nsec := 0, loc := cairo2024 }).1
      = filterTimestamps (TodayFilter driverStub
        { unix := 1714149000, nsec := 0, loc := cairo2024 }).1 := by
  decide

set_option maxRecDepth 100000 in
/-- C2, on the code: the machine is in Africa/Cairo, the instant is
2024-04-26T16:30:00Z (Friday 23:30 in Asia/Jakarta) and the holiday API lists
nothing. The first candidate of the loop is Friday itself, it is not a
holiday, and `GetDateKemarinBukanHariLibur` returns the midnight of today, a
day that is not before today; the bounds of `YesterdayNotLiburFilter` carry
the timestamps of the bounds of `TodayFilter`. -/
theorem GetDateKemarinBukanHariLibur_cairo_spring :
    jakartaDay { unix := 1714149000, nsec := 0, loc := cairo2024 } = 19839 ∧
    (GetDateKemarinBukanHariLibur (transportFixed 200 "[]") stubUnmarshalLibur 1
        { unix := 1714149000, nsec := 0, loc := cairo2024 }).map Time.unix
      = some (jakartaMidnight 19839).unix ∧
    (YesterdayNotLiburFilter driverStub (transportFixed 200 "[]") (transportFixed 200 "[]")
        stubUnmarshalLibur 1 { unix := 1714149000, nsec := 0, loc := cairo2024 }
        { unix := 1714149000, nsec := 0, loc := cairo2024 }).map (fun r => filterTimestamps r.1)
      = some (filterTimestamps (TodayFilter driverStub
          { unix := 1714149000, nsec := 0, loc := cairo2024 }).1) := by
  decide

/-- C3, on the code: the machine is in Africa/Cairo, the instant is
2024-11-01T17:30:00Z (Saturday 2 November, 00:30 in Asia/Jakarta, less than a
day after Cairo moved its clocks back) and every lookup fails in the
transport. `AddDate(0, 0, -1)` goes back 25 hours, to Thursday 23:30 in
Asia/Jakarta: Friday 1 November is never tested, and
`GetDateKemarinBukanHariLibur` returns the midnight of Thursday 31 October. -/
theorem GetDateKemarinBukanHariLibur_cairo_autumn :
    jakartaDay { unix := 1730482200, nsec := 0, loc := cairo2024 } = 20029 ∧
    weekdayOfDay 20029 = 6 ∧
    weekdayOfDay 20028 = 5 ∧
    liburOn transportDown stubUnmarshalLibur 20028 = false ∧
    (GetDateKemarinBukanHariLibur transportDown stubUnmarshalLibur 3
        { unix := 1730482200, nsec := 0, loc := cairo2024 }).map Time.unix
      = some (jakartaMidnight 20027).unix ∧
    (jakartaMidnight 20027).Format = "2024-10-31" := by
  decide

/-! ## Examples on a machine in UTC -/

set_option maxRecDepth 100000 in
/-- Today is Monday 2024-04-29 and the holiday API lists nothing: Sunday and
Saturday are rejected, Friday 2024-04-26 is accepted on the third test, and
the bounds of `YesterdayNotLiburFilter` carry the timestamps of Friday
midnight and Saturday midnight. -/
theorem monday_without_holidays :
    weekdayOfDay (jakartaDay { unix := 1714363200, nsec := 0, loc := UTC }) = 1 ∧
    (GetDateKemarinBukanHariLibur (transportFixed 200 "[]") stubUnmarshalLibur 2
        { unix := 1714363200, nsec := 0, loc := UTC }).map Time.unix = none ∧
    (GetDateKemarinBukanHariLibur (transportFixed 200 "[]") stubUnmarshalLibur 3
        { unix := 1714363200, nsec := 0, loc := UTC }).map Time.Format = some "2024-04-26" ∧
    (YesterdayNotLiburFilter driverStub (transportFixed 200 "[]") (transportFixed 200 "[]")
        stubUnmarshalLibur 3 { unix := 1714363200, nsec := 0, loc := UTC }
        { unix := 1714363200, nsec := 0, loc := UTC }).map (fun r => filterTimestamps r.1)
      = some [("$gte", uint32 (jakartaMidnight 19839).unix),
              ("$lt", uint32 (jakartaMidnight 19840).unix)] ∧
    weekdayOfDay 19839 = 5 ∧ weekdayOfDay 19840 = 6 := by
  decide

set_option maxRecDepth 100000 in
/-- Today is Monday 2024-04-29 and the holiday API lists Friday 2024-04-26:
Sunday, Saturday and Friday are rejected and Thursday 2024-04-25 is accepted
on the fourth test. -/
theorem monday_after_friday_holiday :
    (GetDateKemarinBukanHariLibur (transportFixed 200 "[\x7b\"Tanggal\":\"2024-04-26\"\x7d]")
        stubUnmarshalLibur 3 { unix := 1714363200, nsec := 0, loc := UTC }).map Time.unix
      = none ∧
    (GetDateKemarinBukanHariLibur (transportFixed 200 "[\x7b\"Tanggal\":\"2024-04-26\"\x7d]")
        stubUnmarshalLibur 4 { unix := 1714363200, nsec := 0, loc := UTC }).map Time.Format
      = some "2024-04-25" ∧
    (GetDateKemarinBukanHariLibur (transportFixed 200 "[\x7b\"Tanggal\":\"2024-04-26\"\x7d]")
        stubUnmarshalLibur 4 { unix := 1714363200, nsec := 0, loc := UTC }).map Time.unix
      = some (jakartaMidnight 19838).unix ∧
    weekdayOfDay 19838 = 4 := by
  decide

end Mgdb
